import Mathlib

/-!
Verification development for the cheddar-proxy interception core.

The definitions below are a shallow embedding, in Lean, of the Rust code in
`core/src` (models/transaction.rs, proxy/breakpoints.rs, proxy/server.rs,
storage/transaction_store.rs).  Pure Rust functions become Lean functions;
the stateful request pipeline becomes explicit state passing; machine
integers become `Nat`/`Int` (none of the modelled arithmetic can overflow at
the modelled sizes, and the one `checked_add` in the chunked reader maps to
plain `Nat` addition); fallible Rust code returns `Option`/`Except`.

Rust's `to_ascii_lowercase`/`to_ascii_uppercase` and `eq_ignore_ascii_case`
are modelled character-wise on ASCII.  HTTP method tokens, header names and
the header values the claims touch are ASCII by construction (httparse only
accepts ASCII tchar tokens), so the ASCII model coincides with Rust's
Unicode `to_uppercase`/`to_lowercase` on every input that can reach the
modelled functions.
-/

/-- ASCII lowercase of one character (Rust `u8::to_ascii_lowercase`). -/
def asciiLowerChar (c : Char) : Char :=
  if 'A' ≤ c ∧ c ≤ 'Z' then Char.ofNat (c.toNat + 32) else c

/-- ASCII uppercase of one character (Rust `u8::to_ascii_uppercase`). -/
def asciiUpperChar (c : Char) : Char :=
  if 'a' ≤ c ∧ c ≤ 'z' then Char.ofNat (c.toNat - 32) else c

/-- ASCII lowercase of a string (Rust `str::to_ascii_lowercase`). -/
def asciiLower (s : String) : String :=
  String.mk (s.toList.map asciiLowerChar)

/-- ASCII uppercase of a string (Rust `str::to_ascii_uppercase`; coincides
with `str::to_uppercase` on ASCII inputs such as httparse method tokens). -/
def asciiUpper (s : String) : String :=
  String.mk (s.toList.map asciiUpperChar)

/-- Rust `str::eq_ignore_ascii_case`. -/
def eqIgnoreAsciiCase (a b : String) : Bool :=
  asciiLower a == asciiLower b

/-- Is `needle` a prefix of `hay` (character lists)? -/
def charsPrefixOf : List Char → List Char → Bool
  | [], _ => true
  | _ :: _, [] => false
  | a :: as, b :: bs => a == b && charsPrefixOf as bs

/-- Does `hay` contain `needle` as a contiguous substring?  Models Rust
`str::contains` for plain (non-pattern) needles. -/
def charsInfixOf (needle : List Char) : List Char → Bool
  | [] => charsPrefixOf needle []
  | c :: rest' => charsPrefixOf needle (c :: rest') || charsInfixOf needle rest'

/-- Rust `str::contains(substring)`. -/
def strContainsSub (hay needle : String) : Bool :=
  charsInfixOf needle.toList hay.toList

/-- HTTP methods (`models/transaction.rs`, enum `HttpMethod`). -/
inductive HttpMethod where
  | get
  | post
  | put
  | patch
  | delete
  | head
  | options
  | connect
  | trace
  deriving DecidableEq, Repr, Fintype

/-- `HttpMethod::from_str_lossy`: uppercase the token and match it against
the nine method names, defaulting to `Get`. -/
def HttpMethod.fromStrLossy (s : String) : HttpMethod :=
  match asciiUpper s with
  | "GET" => .get
  | "POST" => .post
  | "PUT" => .put
  | "PATCH" => .patch
  | "DELETE" => .delete
  | "HEAD" => .head
  | "OPTIONS" => .options
  | "CONNECT" => .connect
  | "TRACE" => .trace
  | _ => .get

/-- `HttpMethod::to_string`. -/
def HttpMethod.toString : HttpMethod → String
  | .get => "GET"
  | .post => "POST"
  | .put => "PUT"
  | .patch => "PATCH"
  | .delete => "DELETE"
  | .head => "HEAD"
  | .options => "OPTIONS"
  | .connect => "CONNECT"
  | .trace => "TRACE"

/-- Transaction states (`models/transaction.rs`, enum `TransactionState`). -/
inductive TransactionState where
  | pending
  | completed
  | failed
  | breakpointed
  deriving DecidableEq, Repr, Fintype

/-- The legal transition graph of the specification (§3 Invariants):
Pending→{Breakpointed,Completed,Failed} and Breakpointed→{Pending,Failed};
Completed and Failed are terminal. -/
def legalTransition : TransactionState → TransactionState → Bool
  | .pending, .breakpointed => true
  | .pending, .completed => true
  | .pending, .failed => true
  | .breakpointed, .pending => true
  | .breakpointed, .failed => true
  | _, _ => false

/-!
Lifecycle of a transaction in the data plane.

A transaction is created in `Pending` by `HttpTransaction::new` the moment
the request line is parsed.  The only code that subsequently writes its
`state` field during its lifetime is `maybe_pause_request`
(breakpoints.rs:211,219), `process_request` (server.rs:457,481,523,601,644,
673,717,737) and `handle_plain_connect` (server.rs:1775,1793).  Control flow
through these functions is determined by four outcomes that the environment
supplies (breakpoint decision, upstream connect result, body-forward result,
response-head result); the trace of states the transaction passes through is
a function of those outcomes, written out below by following the source
line by line.
-/

/-- Outcome of the breakpoint rendezvous seen by `maybe_pause_request`:
no rule matched, the decision was `Resume`, the decision was `Abort`, or the
oneshot channel was dropped (`breakpoint cancelled`). -/
inductive BreakpointOutcome where
  | noMatch
  | resumed
  | aborted
  | cancelled
  deriving DecidableEq, Repr, Fintype

/-- Outcome of `connect_upstream` as seen by `process_request`. -/
inductive ConnectOutcome where
  | ok
  | err
  deriving DecidableEq, Repr, Fintype

/-- Outcome of `forward_request_to_upstream` as seen by `process_request`. -/
inductive ForwardOutcome where
  | ok
  | tooLarge
  | otherErr
  deriving DecidableEq, Repr, Fintype

/-- Outcome of reading the response head (after the optional GET/HEAD
retry) as seen by `process_request`. -/
inductive RespOutcome where
  | ok
  | err
  deriving DecidableEq, Repr, Fintype

/-- States assigned by `maybe_pause_request` (breakpoints.rs:202-234), in
order: on a rule match the transaction is set to `Breakpointed` (line 211);
a `Resume` decision sets it back to `Pending` (line 219); `Abort` and a
dropped channel leave it `Breakpointed` and return an error. -/
def maybePauseStates : BreakpointOutcome → List TransactionState
  | .noMatch => []
  | .resumed => [.breakpointed, .pending]
  | .aborted => [.breakpointed]
  | .cancelled => [.breakpointed]

/-- Did `maybe_pause_request` return an error (propagated by
`handle_breakpoints` to `process_request`)? -/
def breakpointAborts : BreakpointOutcome → Bool
  | .aborted => true
  | .cancelled => true
  | _ => false

/-- The sequence of values taken by `tx.state` during `process_request`
(server.rs:406-747), starting from the `Pending` assigned by
`HttpTransaction::new`: a breakpoint error sets `Failed` (line 457); a
connect error sets `Failed` (line 481); a forward error sets `Failed`
(line 523); a response-head error sets `Failed` (line 737); every
successful response path sets `Completed` (lines 601, 644, 673, 717). -/
def processRequestStates (b : BreakpointOutcome) (c : ConnectOutcome)
    (f : ForwardOutcome) (r : RespOutcome) : List TransactionState :=
  let bp := TransactionState.pending :: maybePauseStates b
  if breakpointAborts b then bp ++ [.failed]
  else
    match c with
    | .err => bp ++ [.failed]
    | .ok =>
      match f with
      | .tooLarge => bp ++ [.failed]
      | .otherErr => bp ++ [.failed]
      | .ok =>
        match r with
        | .ok => bp ++ [.completed]
        | .err => bp ++ [.failed]

/-- The sequence of values taken by `tx.state` during
`handle_plain_connect` (server.rs:1757-1800): `Pending` from
`HttpTransaction::new`, then `Completed` on a successful tunnel (line 1775)
or `Failed` on a connect error (line 1793). -/
def plainConnectStates (connected : Bool) : List TransactionState :=
  if connected then [.pending, .completed] else [.pending, .failed]

/-- Does every consecutive pair of states in the trace lie in
`legalTransition`? -/
def chainLegal : List TransactionState → Bool
  | [] => true
  | [_] => true
  | a :: b :: rest => legalTransition a b && chainLegal (b :: rest)

/-- C1: every state trace of the data plane starts in `Pending`, each
consecutive pair of states lies in the legal transition graph
(Pending→{Breakpointed,Completed,Failed}, Breakpointed→{Pending,Failed}),
and since no legal transition leaves `Completed` or `Failed`, a transaction
is never moved out of a terminal state. -/
theorem transaction_state_traces_follow_legal_graph :
    (∀ (b : BreakpointOutcome) (c : ConnectOutcome) (f : ForwardOutcome)
        (r : RespOutcome),
      (processRequestStates b c f r).head? = some .pending ∧
      chainLegal (processRequestStates b c f r) = true) ∧
    (∀ connected : Bool,
      (plainConnectStates connected).head? = some .pending ∧
      chainLegal (plainConnectStates connected) = true) ∧
    (∀ t : TransactionState,
      legalTransition .completed t = false ∧ legalTransition .failed t = false) := by
  refine ⟨?_, ?_, ?_⟩
  · intro b c f r
    cases b <;> cases c <;> cases f <;> cases r <;> exact ⟨rfl, rfl⟩
  · intro connected
    cases connected <;> exact ⟨rfl, rfl⟩
  · intro t
    cases t <;> exact ⟨rfl, rfl⟩

/-!
C10: method parsing.  `read_http_request` (server.rs:1574,1595) maps the
method token through `HttpMethod::from_str_lossy`; the transaction records
that value (`HttpTransaction::new`) and `write_request_head`
(server.rs:2242) forwards `method.to_string()` upstream.
-/

/-- The nine recognized method tokens, as matched (after uppercasing) by
`HttpMethod::from_str_lossy`. -/
def recognizedMethodTokens : List String :=
  ["GET", "POST", "PUT", "PATCH", "DELETE", "HEAD", "OPTIONS", "CONNECT", "TRACE"]

/-- C10: a method token that is not one of the nine recognized methods
(compared case-insensitively, i.e. after uppercasing) parses to `Get`, so
the transaction records method GET and the head forwarded upstream carries
the token GET. -/
theorem unknown_method_parses_and_forwards_as_get (s : String)
    (h : asciiUpper s ∉ recognizedMethodTokens) :
    HttpMethod.fromStrLossy s = .get ∧ (HttpMethod.fromStrLossy s).toString = "GET" := by
  have hget : HttpMethod.fromStrLossy s = .get := by
    unfold HttpMethod.fromStrLossy
    split <;> simp_all [recognizedMethodTokens]
  exact ⟨hget, by rw [hget]; rfl⟩

/-- Witness for C10 at the concrete token "BREW". -/
theorem unknown_method_parses_and_forwards_as_get_witness :
    asciiUpper "BREW" ∉ recognizedMethodTokens ∧
    (HttpMethod.fromStrLossy "BREW" = .get ∧
      (HttpMethod.fromStrLossy "BREW").toString = "GET") :=
  ⟨by decide, unknown_method_parses_and_forwards_as_get "BREW" (by decide)⟩

/-!
C6: hop-by-hop rewrites in `write_request_head` (server.rs:2223-2265).
The function writes the request line (downgrading an "HTTP/2" version token
to "HTTP/1.1"), then each header, skipping Proxy-Connection and Keep-Alive,
replacing any Connection header with "Connection: close", and appending
"Connection: close" if no Connection header was present.
-/

/-- One step of the header loop of `write_request_head`; the Bool argument
is the `has_connection` flag.  Returns the header lines actually written,
including the trailing "Connection: close" appended when the flag is still
false at the end. -/
def writeHeadHeaderLines : List (String × String) → Bool → List (String × String)
  | [], hasConnection =>
    if hasConnection then [] else [("Connection", "close")]
  | (name, value) :: rest, hasConnection =>
    if eqIgnoreAsciiCase name "Proxy-Connection" || eqIgnoreAsciiCase name "Keep-Alive" then
      writeHeadHeaderLines rest hasConnection
    else if eqIgnoreAsciiCase name "Connection" then
      ("Connection", "close") :: writeHeadHeaderLines rest true
    else
      (name, value) :: writeHeadHeaderLines rest hasConnection

/-- The header lines of the upstream request head written by
`write_request_head` for a given parsed header list. -/
def writeRequestHeadHeaders (headers : List (String × String)) : List (String × String) :=
  writeHeadHeaderLines headers false

/-- A written header line is hop-by-hop clean: not Proxy-Connection, not
Keep-Alive, and if it is a Connection header its value is "close". -/
def hopByHopClean (p : String × String) : Bool :=
  !eqIgnoreAsciiCase p.1 "Proxy-Connection" && !eqIgnoreAsciiCase p.1 "Keep-Alive" &&
    (!eqIgnoreAsciiCase p.1 "Connection" || p.2 == "close")

theorem writeHeadHeaderLines_all_clean (hs : List (String × String)) :
    ∀ flag, (writeHeadHeaderLines hs flag).all hopByHopClean = true := by
  induction hs with
  | nil => intro flag; cases flag <;> decide
  | cons p rest ih =>
    intro flag
    obtain ⟨name, value⟩ := p
    simp only [writeHeadHeaderLines]
    split
    · exact ih flag
    · split
      · have hcc : hopByHopClean ("Connection", "close") = true := by decide
        simp [List.all_cons, hcc, ih true]
      · rename_i hskip hconn
        simp only [Bool.or_eq_true, not_or, Bool.not_eq_true] at hskip
        simp [List.all_cons, ih flag, hopByHopClean, hskip.1, hskip.2,
          Bool.not_eq_true] at *
        simp [hconn]

theorem writeHeadHeaderLines_has_close (hs : List (String × String)) :
    (writeHeadHeaderLines hs false).any
      (fun p => p.1 == "Connection" && p.2 == "close") = true := by
  induction hs with
  | nil => decide
  | cons p rest ih =>
    obtain ⟨name, value⟩ := p
    simp only [writeHeadHeaderLines]
    split
    · exact ih
    · split
      · simp [List.any_cons]
      · simp [List.any_cons, ih]

/-- C6: the request head written to upstream contains no Proxy-Connection
and no Keep-Alive header, every Connection header it contains has the value
"close", and it always contains a "Connection: close" line. -/
theorem forwarded_head_normalizes_hop_by_hop (headers : List (String × String)) :
    ((writeRequestHeadHeaders headers).all hopByHopClean = true) ∧
    ((writeRequestHeadHeaders headers).any
      (fun p => p.1 == "Connection" && p.2 == "close") = true) :=
  ⟨writeHeadHeaderLines_all_clean headers false, writeHeadHeaderLines_has_close headers⟩

/-!
C7: header translation in `bridge_h1_to_hyper_upstream`
(server.rs:2869-2953).  The bridge lowercases each H1 header name and then:
drops connection, keep-alive, proxy-connection, upgrade and expect; drops
transfer-encoding (remembering whether it contained "chunked"); holds back
content-length (re-added after the loop only when the request is not
chunked); keeps te only when its value contains "trailers", normalized to
the exact value "trailers"; and drops host (remembered for the :authority
pseudo-header).  All other headers are pushed with the lowercased name.
-/

/-- Rust `str::parse::<usize>()` (an optional leading '+', then ASCII
digits; empty digit strings fail; values above `usize::MAX` fail on the
64-bit targets the proxy builds for). -/
def parseUsizeDigits : List Char → Option Nat → Option Nat
  | [], acc => acc
  | c :: rest, acc =>
    if c.isDigit then
      parseUsizeDigits rest (some (acc.getD 0 * 10 + (c.toNat - '0'.toNat)))
    else
      none

/-- Rust `str::parse::<usize>().ok()`. -/
def parseUsize (s : String) : Option Nat :=
  let digits :=
    match s.toList with
    | '+' :: rest => parseUsizeDigits rest none
    | l => parseUsizeDigits l none
  match digits with
  | some n => if n < 2 ^ 64 then some n else none
  | none => none

/-- Accumulator of the header loop of `bridge_h1_to_hyper_upstream`:
the pushed header list, the is_chunked flag, the held-back content-length,
and the host value remembered for :authority. -/
structure BridgeHeadState where
  headersList : List (String × String)
  isChunked : Bool
  contentLength : Option Nat
  hostAtBridge : String
  deriving Repr, DecidableEq

/-- One iteration of the header loop of `bridge_h1_to_hyper_upstream`
(server.rs:2875-2925), on the lowercased header name exactly as the
source compares it. -/
def bridgeHeaderStep (st : BridgeHeadState) (h : String × String) : BridgeHeadState :=
  let name := asciiLower h.1
  let value := h.2
  if name == "connection" || name == "keep-alive" || name == "proxy-connection" ||
      name == "upgrade" then
    st
  else if name == "expect" then
    st
  else if name == "transfer-encoding" then
    if strContainsSub (asciiLower value) "chunked" then { st with isChunked := true } else st
  else if name == "content-length" then
    { st with contentLength := parseUsize value }
  else if name == "te" then
    if strContainsSub (asciiLower value) "trailers" then
      { st with headersList := st.headersList ++ [(name, "trailers")] }
    else
      st
  else if name == "host" then
    { st with hostAtBridge := value }
  else
    { st with headersList := st.headersList ++ [(name, value)] }

/-- The header loop of `bridge_h1_to_hyper_upstream` over the parsed H1
header list. -/
def bridgeCollect (headers : List (String × String)) : BridgeHeadState :=
  headers.foldl bridgeHeaderStep ⟨[], false, none, ""⟩

/-- The final H2 header list sent upstream: the collected headers, plus
content-length re-added when the request was not chunked
(server.rs:2949-2953). -/
def bridgeH1toH2Headers (headers : List (String × String)) : List (String × String) :=
  let st := bridgeCollect headers
  if !st.isChunked then
    match st.contentLength with
    | some len => st.headersList ++ [("content-length", Nat.repr len)]
    | none => st.headersList
  else
    st.headersList

/-- An H2 header entry is bridge-clean: its (lowercase) name is none of the
seven headers the bridge must drop, and if it is te its value is exactly
"trailers". -/
def bridgeClean (p : String × String) : Bool :=
  !(p.1 == "connection") && !(p.1 == "keep-alive") && !(p.1 == "proxy-connection") &&
    !(p.1 == "upgrade") && !(p.1 == "transfer-encoding") && !(p.1 == "expect") &&
    !(p.1 == "host") && (!(p.1 == "te") || p.2 == "trailers")

/-- Is an output entry the te header? -/
def isTeEntry (p : String × String) : Bool := p.1 == "te"

/-- Is an input header a TE header whose value contains "trailers"
(the condition under which the bridge keeps it)? -/
def isTeKeptInput (p : String × String) : Bool :=
  asciiLower p.1 == "te" && strContainsSub (asciiLower p.2) "trailers"

theorem bridgeHeaderStep_inv (st : BridgeHeadState) (p : String × String)
    (hc : st.headersList.all bridgeClean = true) :
    (bridgeHeaderStep st p).headersList.all bridgeClean = true ∧
    (bridgeHeaderStep st p).headersList.any isTeEntry =
      (st.headersList.any isTeEntry || isTeKeptInput p) := by
  obtain ⟨n, v⟩ := p
  simp only [bridgeHeaderStep, isTeKeptInput]
  split
  case isTrue h =>
    refine ⟨hc, ?_⟩
    have hne : (asciiLower n == "te") = false := by
      simp only [Bool.or_eq_true, beq_iff_eq] at h ⊢
      rcases h with ((h | h) | h) | h <;> simp [h]
    simp [hne]
  case isFalse h1 =>
    split
    case isTrue h =>
      refine ⟨hc, ?_⟩
      have hne : (asciiLower n == "te") = false := by
        simp only [beq_iff_eq] at h ⊢
        simp [h]
      simp [hne]
    case isFalse h2 =>
      split
      case isTrue h =>
        have hne : (asciiLower n == "te") = false := by
          simp only [beq_iff_eq] at h ⊢
          simp [h]
        split <;> exact ⟨hc, by simp [hne]⟩
      case isFalse h3 =>
        split
        case isTrue h =>
          have hne : (asciiLower n == "te") = false := by
            simp only [beq_iff_eq] at h ⊢
            simp [h]
          exact ⟨hc, by simp [hne]⟩
        case isFalse h4 =>
          split
          case isTrue hte =>
            split
            case isTrue htr =>
              have hte' : asciiLower n = "te" := by simpa using hte
              constructor
              · simp only [List.all_append, hc, Bool.true_and, hte']
                decide
              · simp [List.any_append, isTeEntry, hte, htr, hte']
            case isFalse htr =>
              refine ⟨hc, ?_⟩
              simp only [Bool.not_eq_true] at htr
              simp [hte, htr]
          case isFalse hte =>
            have hne : (asciiLower n == "te") = false := by
              simpa using hte
            split
            case isTrue h =>
              exact ⟨hc, by simp [hne]⟩
            case isFalse h6 =>
              constructor
              · simp only [List.all_append, hc, Bool.true_and]
                simp only [Bool.or_eq_true, beq_iff_eq, not_or, Bool.not_eq_true] at h1
                simp only [beq_iff_eq, Bool.not_eq_true] at h2 h3 h6 hne
                simp [bridgeClean, h1.1.1.1, h1.1.1.2, h1.1.2, h1.2, h2, h3, h6, hne]
              · simp [List.any_append, isTeEntry, hne]

theorem bridgeCollect_fold_inv (headers : List (String × String)) :
    ∀ st : BridgeHeadState, st.headersList.all bridgeClean = true →
      ((headers.foldl bridgeHeaderStep st).headersList.all bridgeClean = true ∧
        (headers.foldl bridgeHeaderStep st).headersList.any isTeEntry =
          (st.headersList.any isTeEntry || headers.any isTeKeptInput)) := by
  induction headers with
  | nil =>
    intro st h
    simpa using h
  | cons p rest ih =>
    intro st h
    have step := bridgeHeaderStep_inv st p h
    have tail := ih (bridgeHeaderStep st p) step.1
    refine ⟨tail.1, ?_⟩
    rw [List.foldl_cons] at *
    rw [tail.2, step.2]
    simp [List.any_cons, Bool.or_assoc]

/-- C7 (amended): the H2 header list produced by the bridge contains none
of connection, keep-alive, proxy-connection, upgrade, transfer-encoding,
expect or host; every te entry it contains has the exact value "trailers";
and a te entry is present exactly when some incoming TE header's value
contains "trailers" (ASCII case-insensitively). -/
theorem bridge_h2_header_list_sanitized (headers : List (String × String)) :
    (bridgeH1toH2Headers headers).all bridgeClean = true ∧
    (bridgeH1toH2Headers headers).any isTeEntry = headers.any isTeKeptInput := by
  have base := bridgeCollect_fold_inv headers ⟨[], false, none, ""⟩ rfl
  have hclean : bridgeClean ("content-length", Nat.repr 0) = true := by decide
  unfold bridgeH1toH2Headers
  simp only [bridgeCollect] at *
  split
  · split
    · rename_i len heq
      constructor
      · rw [List.all_append, base.1]
        simp [bridgeClean]
      · rw [List.any_append, base.2]
        simp [isTeEntry]
    · simpa using base
  · simpa using base

/-- C7 counterexample: a request header TE with value "gzip, trailers" is
not exactly "trailers", and yet the bridge keeps a te header (with the
normalized value "trailers"). -/
theorem bridge_te_kept_although_value_not_exactly_trailers :
    bridgeH1toH2Headers [("TE", "gzip, trailers")] = [("te", "trailers")] ∧
    (bridgeH1toH2Headers [("TE", "gzip, trailers")]).any isTeEntry = true ∧
    ("gzip, trailers" : String) ≠ "trailers" := by
  refine ⟨by decide, by decide, by decide⟩

/-!
C4/C5: the breakpoint engine and edit application.

`RequestEdit` (models/breakpoint.rs) and `ParsedRequest::apply_edit`,
`set_header`, `remove_header`, `sync_header_map` (server.rs:1418-1473).
The `HashMap` field `request_headers` is modelled as an association list
with insert-overwrite semantics (`syncHeaderMap`); every claim below reads
only `header_list`, which the source keeps as the ordered list of headers.
Request body bytes are modelled as `List Nat`.
-/

/-- Request edits applied when resuming a breakpoint
(models/breakpoint.rs, struct `RequestEdit`).  The `headers` map is
modelled as its entry list. -/
structure RequestEdit where
  method : Option HttpMethod
  path : Option String
  headers : Option (List (String × String))
  body : Option (List Nat)
  deriving Repr, DecidableEq

/-- `RequestEdit::is_empty`. -/
def RequestEdit.isEmpty (e : RequestEdit) : Bool :=
  e.method.isNone && e.path.isNone && e.headers.isNone && e.body.isNone

/-- `RequestBodyKind` (server.rs:1476-1482). -/
inductive RequestBodyKind where
  | none
  | contentLength (length : Nat)
  | chunked
  | edited (data : List Nat)
  deriving Repr, DecidableEq

/-- `RequestBodyKind::len` (server.rs:1485-1492). -/
def RequestBodyKind.len : RequestBodyKind → Nat
  | .none => 0
  | .contentLength length => length
  | .chunked => 0
  | .edited data => data.length

/-- 32 MiB hard cap on inbound bodies (`MAX_REQUEST_BODY_BYTES`,
server.rs:49). -/
def maxRequestBodyBytes : Nat := 32 * 1024 * 1024

/-- `ParsedRequest` (server.rs:1303-1316), restricted to the fields the
pure request-rewriting code reads and writes. -/
structure ParsedRequest where
  method : HttpMethod
  scheme : String
  host : String
  port : Nat
  path : String
  version : String
  requestHeaders : List (String × String)
  headerList : List (String × String)
  bodyKind : RequestBodyKind
  bufferedBody : List Nat
  deriving Repr, DecidableEq

/-- Insert-overwrite into the association-list model of a `HashMap`. -/
def mapInsert (m : List (String × String)) (k v : String) : List (String × String) :=
  m.filter (fun p => p.1 ≠ k) ++ [(k, v)]

/-- `ParsedRequest::sync_header_map` (server.rs:1471): rebuild the
case-sensitive `HashMap` from the header list, later entries overwriting
earlier ones. -/
def syncHeaderMap (l : List (String × String)) : List (String × String) :=
  l.foldl (fun m p => mapInsert m p.1 p.2) []

/-- The scan-and-update part of `ParsedRequest::set_header`
(server.rs:1450-1459): replace the value of the first case-insensitive
match, reporting whether one was found. -/
def setHeaderCore : List (String × String) → String → String → List (String × String) × Bool
  | [], _, _ => ([], false)
  | (k, v) :: rest, name, value =>
    if eqIgnoreAsciiCase k name then
      ((k, value) :: rest, true)
    else
      let r := setHeaderCore rest name value
      ((k, v) :: r.1, r.2)

/-- The header-list result of `ParsedRequest::set_header`: update the first
case-insensitive match, or append the pair when none exists. -/
def setHeaderApplied (l : List (String × String)) (name value : String) :
    List (String × String) :=
  let r := setHeaderCore l name value
  if r.2 then r.1 else r.1 ++ [(name, value)]

/-- `ParsedRequest::set_header` (server.rs:1450-1463). -/
def ParsedRequest.setHeader (pr : ParsedRequest) (name value : String) : ParsedRequest :=
  { pr with
    headerList := setHeaderApplied pr.headerList name value
    requestHeaders := syncHeaderMap (setHeaderApplied pr.headerList name value) }

/-- `ParsedRequest::remove_header` (server.rs:1465-1469). -/
def ParsedRequest.removeHeader (pr : ParsedRequest) (name : String) : ParsedRequest :=
  { pr with
    headerList := pr.headerList.filter (fun p => !eqIgnoreAsciiCase p.1 name)
    requestHeaders :=
      syncHeaderMap (pr.headerList.filter (fun p => !eqIgnoreAsciiCase p.1 name)) }

/-- `ParsedRequest::apply_edit` (server.rs:1418-1448): override method,
path and headers when set; when a body is set, truncate it to the 32 MiB
cap, store it as `Edited`, clear the buffered body, remove any
Transfer-Encoding header and set Content-Length to the new length; when no
body is set but the kind is already `Edited`, re-normalize the same two
headers. -/
def ParsedRequest.applyEdit (pr : ParsedRequest) (e : RequestEdit) : ParsedRequest :=
  let pr1 :=
    match e.method with
    | some m => { pr with method := m }
    | none => pr
  let pr2 :=
    match e.path with
    | some p => { pr1 with path := p }
    | none => pr1
  let pr3 :=
    match e.headers with
    | some hs => { pr2 with headerList := hs, requestHeaders := syncHeaderMap hs }
    | none => pr2
  match e.body with
  | some b =>
    let data := if b.length > maxRequestBodyBytes then b.take maxRequestBodyBytes else b
    let pr4 := { pr3 with bodyKind := .edited data, bufferedBody := [] }
    let pr5 := pr4.removeHeader "transfer-encoding"
    pr5.setHeader "Content-Length" (Nat.repr pr5.bodyKind.len)
  | none =>
    match pr3.bodyKind with
    | .edited _ =>
      let pr4 := pr3.removeHeader "transfer-encoding"
      pr4.setHeader "Content-Length" (Nat.repr pr4.bodyKind.len)
    | _ => pr3

/-- The decision delivered to a paused request through the oneshot channel
(breakpoints.rs, enum `BreakpointAction`). -/
inductive BreakpointAction where
  | resume (edit : RequestEdit)
  | abort (reason : String)
  deriving Repr, DecidableEq

/-- The edit (if any) returned by `maybe_pause_request`
(breakpoints.rs:202-234) as a function of whether a rule matched and of the
decision delivered: no match or an empty resume edit yield no edit, a
non-empty resume edit is returned, an abort propagates as an error. -/
def maybePauseRequestEdit (shouldBreak : Bool) (decision : BreakpointAction) :
    Except String (Option RequestEdit) :=
  if !shouldBreak then .ok none
  else
    match decision with
    | .resume edit => if edit.isEmpty then .ok none else .ok (some edit)
    | .abort reason => .error reason

/-- `handle_breakpoints` (server.rs:2209-2221): apply the edit to the
parsed request only when `maybe_pause_request` returned one. -/
def handleBreakpoints (pr : ParsedRequest) (shouldBreak : Bool)
    (decision : BreakpointAction) : Except String ParsedRequest :=
  match maybePauseRequestEdit shouldBreak decision with
  | .error r => .error r
  | .ok Option.none => .ok pr
  | .ok (some edit) => .ok (pr.applyEdit edit)

/-- C4: resuming a breakpointed request with an empty edit returns the
parsed request unchanged, so its method, path, headers and body after the
breakpoint are exactly those from before it (the transaction fields are
rewritten from the parsed request only when an edit is applied). -/
theorem empty_edit_resume_preserves_request (pr : ParsedRequest) (e : RequestEdit)
    (h : e.isEmpty = true) :
    handleBreakpoints pr true (.resume e) = .ok pr := by
  simp [handleBreakpoints, maybePauseRequestEdit, h]

/-- A concrete parsed request used by witnesses and counterexamples. -/
def sampleParsedRequest : ParsedRequest :=
  { method := .get
    scheme := "http"
    host := "example.com"
    port := 80
    path := "/x"
    version := "HTTP/1.1"
    requestHeaders := [("Host", "example.com")]
    headerList := [("Host", "example.com")]
    bodyKind := .none
    bufferedBody := [] }

/-- Witness for C4 at a concrete request and the all-fields-unset edit. -/
theorem empty_edit_resume_preserves_request_witness :
    RequestEdit.isEmpty ⟨Option.none, Option.none, Option.none, Option.none⟩ = true ∧
    handleBreakpoints sampleParsedRequest true
        (.resume ⟨Option.none, Option.none, Option.none, Option.none⟩) =
      .ok sampleParsedRequest :=
  ⟨rfl, empty_edit_resume_preserves_request sampleParsedRequest _ rfl⟩

/-- The values of all headers whose name equals `name` case-insensitively,
in list order. -/
def headerValuesCI (l : List (String × String)) (name : String) : List String :=
  (l.filter (fun p => eqIgnoreAsciiCase p.1 name)).map (fun p => p.2)

/-- The number of headers whose name equals `name` case-insensitively. -/
def countHeaderCI (l : List (String × String)) (name : String) : Nat :=
  (l.filter (fun p => eqIgnoreAsciiCase p.1 name)).length

theorem setHeaderApplied_cons (k v name value : String) (rest : List (String × String)) :
    setHeaderApplied ((k, v) :: rest) name value =
      if eqIgnoreAsciiCase k name then (k, value) :: rest
      else (k, v) :: setHeaderApplied rest name value := by
  simp only [setHeaderApplied, setHeaderCore]
  by_cases h : eqIgnoreAsciiCase k name = true
  · simp [h]
  · simp only [h, Bool.false_eq_true, if_false, if_neg]
    split <;> simp

theorem headerValuesCI_setHeaderApplied (l : List (String × String)) (name value : String)
    (h : countHeaderCI l name ≤ 1) :
    headerValuesCI (setHeaderApplied l name value) name = [value] := by
  induction l with
  | nil =>
    simp [setHeaderApplied, setHeaderCore, headerValuesCI, eqIgnoreAsciiCase]
  | cons p rest ih =>
    obtain ⟨k, v⟩ := p
    rw [setHeaderApplied_cons]
    by_cases hk : eqIgnoreAsciiCase k name = true
    · have hcount : (rest.filter (fun p => eqIgnoreAsciiCase p.1 name)).length = 0 := by
        simp only [countHeaderCI, List.filter_cons, hk, if_true, List.length_cons] at h
        omega
      have hnil : rest.filter (fun p => eqIgnoreAsciiCase p.1 name) = [] :=
        List.eq_nil_of_length_eq_zero hcount
      simp [hk, headerValuesCI, List.filter_cons, hnil]
    · have h' : countHeaderCI rest name ≤ 1 := by
        simpa [countHeaderCI, List.filter_cons, hk] using h
      simp [hk, headerValuesCI, List.filter_cons, ih h', headerValuesCI]
      simp [headerValuesCI] at ih
      exact ih h'

theorem headerValuesCI_setHeaderApplied_other (l : List (String × String))
    (name value other : String) (hdiff : eqIgnoreAsciiCase name other = false) :
    headerValuesCI (setHeaderApplied l name value) other = headerValuesCI l other := by
  induction l with
  | nil =>
    simp only [setHeaderApplied, setHeaderCore, if_neg, headerValuesCI]
    have : eqIgnoreAsciiCase name other ≠ true := by simp [hdiff]
    simp [List.filter_cons, hdiff]
  | cons p rest ih =>
    obtain ⟨k, v⟩ := p
    rw [setHeaderApplied_cons]
    by_cases hk : eqIgnoreAsciiCase k name = true
    · have hko : eqIgnoreAsciiCase k other = false := by
        simp only [eqIgnoreAsciiCase, beq_iff_eq, beq_eq_false_iff_ne, ne_eq] at hk hdiff ⊢
        rw [hk]
        exact hdiff
      simp [hk, headerValuesCI, List.filter_cons, hko]
    · by_cases hko : eqIgnoreAsciiCase k other = true <;>
        simp only [hk, Bool.false_eq_true, if_false] <;>
        simp [headerValuesCI, List.filter_cons, hko] <;>
        simpa [headerValuesCI] using ih

theorem filter_ci_after_remove (l : List (String × String)) (name other : String)
    (hdiff : (asciiLower other == asciiLower name) = false) :
    (l.filter (fun p => !eqIgnoreAsciiCase p.1 name)).filter
        (fun p => eqIgnoreAsciiCase p.1 other) =
      l.filter (fun p => eqIgnoreAsciiCase p.1 other) := by
  induction l with
  | nil => rfl
  | cons p rest ih =>
    by_cases ho : eqIgnoreAsciiCase p.1 other = true
    · have hn : eqIgnoreAsciiCase p.1 name = false := by
        simp only [eqIgnoreAsciiCase, beq_iff_eq, beq_eq_false_iff_ne, ne_eq] at ho hdiff ⊢
        rw [ho]
        exact hdiff
      simp [List.filter_cons, ho, hn, ih]
    · by_cases hn : eqIgnoreAsciiCase p.1 name = true <;>
        simp [List.filter_cons, ho, hn, ih]

theorem headerValuesCI_remove_self (l : List (String × String)) (name : String) :
    headerValuesCI (l.filter (fun p => !eqIgnoreAsciiCase p.1 name)) name = [] := by
  induction l with
  | nil => rfl
  | cons p rest ih =>
    by_cases hn : eqIgnoreAsciiCase p.1 name = true
    · simp only [List.filter_cons, hn, Bool.not_true, Bool.false_eq_true, if_false]
      exact ih
    · simp only [List.filter_cons, hn, Bool.not_false, if_true, headerValuesCI,
        Bool.false_eq_true]
      simp only [headerValuesCI] at ih
      simp [List.filter_cons, hn, ih]

theorem ci_ne_of_lower (n nm target : String) (hlow : asciiLower n = target)
    (hnm : (asciiLower nm == target) = false) : eqIgnoreAsciiCase n nm = false := by
  simp only [eqIgnoreAsciiCase, beq_eq_false_iff_ne, ne_eq, beq_iff_eq] at hnm ⊢
  rw [hlow]
  exact fun hx => hnm hx.symm

theorem lower_eq_of_ci (n lit target : String) (h : eqIgnoreAsciiCase n lit = true)
    (hlit : asciiLower lit = target) : asciiLower n = target := by
  simp only [eqIgnoreAsciiCase, beq_iff_eq] at h
  rw [h, hlit]

theorem writeHeadHeaderLines_filter_ci (l : List (String × String)) (nm : String)
    (hp : (asciiLower nm == "proxy-connection") = false)
    (hk : (asciiLower nm == "keep-alive") = false)
    (hc : (asciiLower nm == "connection") = false) :
    ∀ flag, (writeHeadHeaderLines l flag).filter (fun p => eqIgnoreAsciiCase p.1 nm) =
      l.filter (fun p => eqIgnoreAsciiCase p.1 nm) := by
  have hconn : eqIgnoreAsciiCase "Connection" nm = false := by
    simp only [eqIgnoreAsciiCase, beq_eq_false_iff_ne, ne_eq, beq_iff_eq] at hc ⊢
    have h1 : asciiLower "Connection" = "connection" := by decide
    rw [h1]
    exact fun hx => hc hx.symm
  induction l with
  | nil =>
    intro flag
    cases flag
    · simp [writeHeadHeaderLines, List.filter_cons, hconn]
    · simp [writeHeadHeaderLines]
  | cons p rest ih =>
    intro flag
    obtain ⟨n, v⟩ := p
    simp only [writeHeadHeaderLines]
    split
    case isTrue h =>
      have hnm : eqIgnoreAsciiCase n nm = false := by
        rcases (Bool.or_eq_true _ _).mp h with h' | h'
        · exact ci_ne_of_lower n nm "proxy-connection"
            (lower_eq_of_ci n "Proxy-Connection" "proxy-connection" h' (by decide)) hp
        · exact ci_ne_of_lower n nm "keep-alive"
            (lower_eq_of_ci n "Keep-Alive" "keep-alive" h' (by decide)) hk
      simp [List.filter_cons, hnm, ih flag]
    case isFalse h1 =>
      split
      case isTrue h =>
        have hnm : eqIgnoreAsciiCase n nm = false :=
          ci_ne_of_lower n nm "connection"
            (lower_eq_of_ci n "Connection" "connection" h (by decide)) hc
        simp [List.filter_cons, hconn, hnm, ih true]
      case isFalse h2 =>
        by_cases hnm : eqIgnoreAsciiCase n nm = true <;>
          simp [List.filter_cons, hnm, ih flag]

/-- The header list the body-edit step of `apply_edit` starts from: the
edit's headers when the edit overrides them, the request's otherwise. -/
def headerListAfterOverrides (pr : ParsedRequest) (e : RequestEdit) :
    List (String × String) :=
  match e.headers with
  | some hs => hs
  | none => pr.headerList

theorem applyEdit_body_characterization (pr : ParsedRequest) (e : RequestEdit)
    (b : List Nat) (hb : e.body = some b) :
    (pr.applyEdit e).headerList =
      setHeaderApplied
        ((headerListAfterOverrides pr e).filter
          (fun p => !eqIgnoreAsciiCase p.1 "transfer-encoding"))
        "Content-Length" (Nat.repr (min b.length maxRequestBodyBytes)) ∧
    (pr.applyEdit e).bodyKind = .edited (b.take maxRequestBodyBytes) ∧
    (pr.applyEdit e).bufferedBody = [] := by
  have hdata : (if b.length > maxRequestBodyBytes then b.take maxRequestBodyBytes else b) =
      b.take maxRequestBodyBytes := by
    split
    · rfl
    · exact (List.take_of_length_le (Nat.le_of_not_lt (by assumption))).symm
  have hlen : (b.take maxRequestBodyBytes).length = min b.length maxRequestBodyBytes := by
    rw [List.length_take, Nat.min_comm]
  obtain ⟨em, ep, eh, eb⟩ := e
  have hb' : eb = some b := hb
  subst hb'
  cases em <;> cases ep <;> cases eh <;>
    simp [ParsedRequest.applyEdit, headerListAfterOverrides, ParsedRequest.removeHeader,
      ParsedRequest.setHeader, hdata, hlen, RequestBodyKind.len]

/-- C5 (amended): applying a breakpoint edit that sets a body replaces the
buffered body with the new body truncated to the 32 MiB cap, removes every
Transfer-Encoding header, and — provided the header list being edited
carries at most one Content-Length entry — leaves exactly one
Content-Length header, equal to the new body length, both in the edited
request and in the head forwarded upstream by `write_request_head`.
(`set_header` only rewrites the first case-insensitive match, so a request
that arrives with duplicate Content-Length headers keeps the stale extra
copy; see the counterexample.) -/
theorem edit_with_body_normalizes_framing (pr : ParsedRequest) (e : RequestEdit)
    (b : List Nat) (hb : e.body = some b)
    (hdup : countHeaderCI (headerListAfterOverrides pr e) "Content-Length" ≤ 1) :
    (pr.applyEdit e).bodyKind = .edited (b.take maxRequestBodyBytes) ∧
    (pr.applyEdit e).bufferedBody = [] ∧
    headerValuesCI (pr.applyEdit e).headerList "transfer-encoding" = [] ∧
    headerValuesCI (pr.applyEdit e).headerList "Content-Length" =
      [Nat.repr (min b.length maxRequestBodyBytes)] ∧
    headerValuesCI (writeRequestHeadHeaders (pr.applyEdit e).headerList)
      "transfer-encoding" = [] ∧
    headerValuesCI (writeRequestHeadHeaders (pr.applyEdit e).headerList)
      "Content-Length" = [Nat.repr (min b.length maxRequestBodyBytes)] := by
  obtain ⟨hHL, hBK, hBB⟩ := applyEdit_body_characterization pr e b hb
  have hTEdiff : eqIgnoreAsciiCase "Content-Length" "transfer-encoding" = false := by decide
  have hTE : headerValuesCI (pr.applyEdit e).headerList "transfer-encoding" = [] := by
    rw [hHL, headerValuesCI_setHeaderApplied_other _ _ _ _ hTEdiff]
    exact headerValuesCI_remove_self _ _
  have hcount :
      countHeaderCI
        ((headerListAfterOverrides pr e).filter
          (fun p => !eqIgnoreAsciiCase p.1 "transfer-encoding"))
        "Content-Length" ≤ 1 := by
    have heq := filter_ci_after_remove (headerListAfterOverrides pr e)
      "transfer-encoding" "Content-Length" (by decide)
    simp only [countHeaderCI] at hdup ⊢
    rw [heq]
    exact hdup
  have hCL : headerValuesCI (pr.applyEdit e).headerList "Content-Length" =
      [Nat.repr (min b.length maxRequestBodyBytes)] := by
    rw [hHL]
    exact headerValuesCI_setHeaderApplied _ _ _ hcount
  have wpres : ∀ nm : String, (asciiLower nm == "proxy-connection") = false →
      (asciiLower nm == "keep-alive") = false → (asciiLower nm == "connection") = false →
      headerValuesCI (writeRequestHeadHeaders (pr.applyEdit e).headerList) nm =
        headerValuesCI (pr.applyEdit e).headerList nm := by
    intro nm h1 h2 h3
    simp only [headerValuesCI, writeRequestHeadHeaders]
    rw [writeHeadHeaderLines_filter_ci _ nm h1 h2 h3 false]
  refine ⟨hBK, hBB, hTE, hCL, ?_, ?_⟩
  · rw [wpres _ (by decide) (by decide) (by decide)]
    exact hTE
  · rw [wpres _ (by decide) (by decide) (by decide)]
    exact hCL

/-- A body-setting edit used by the C5 witness. -/
def sampleBodyEdit : RequestEdit :=
  ⟨Option.none, Option.none, Option.none, some [72, 73]⟩

/-- Witness for C5 (amended) at a concrete request and edit. -/
theorem edit_with_body_normalizes_framing_witness :
    countHeaderCI (headerListAfterOverrides sampleParsedRequest sampleBodyEdit)
        "Content-Length" ≤ 1 ∧
    ((sampleParsedRequest.applyEdit sampleBodyEdit).bodyKind =
        .edited ([72, 73].take maxRequestBodyBytes) ∧
      (sampleParsedRequest.applyEdit sampleBodyEdit).bufferedBody = [] ∧
      headerValuesCI (sampleParsedRequest.applyEdit sampleBodyEdit).headerList
        "transfer-encoding" = [] ∧
      headerValuesCI (sampleParsedRequest.applyEdit sampleBodyEdit).headerList
        "Content-Length" = [Nat.repr (min ([72, 73] : List Nat).length maxRequestBodyBytes)] ∧
      headerValuesCI
        (writeRequestHeadHeaders (sampleParsedRequest.applyEdit sampleBodyEdit).headerList)
        "transfer-encoding" = [] ∧
      headerValuesCI
        (writeRequestHeadHeaders (sampleParsedRequest.applyEdit sampleBodyEdit).headerList)
        "Content-Length" = [Nat.repr (min ([72, 73] : List Nat).length maxRequestBodyBytes)]) :=
  ⟨by decide,
    edit_with_body_normalizes_framing sampleParsedRequest sampleBodyEdit [72, 73] rfl
      (by decide)⟩

/-- A request carrying duplicate Content-Length headers, as a client may
send (httparse does not reject duplicates). -/
def dupContentLengthRequest : ParsedRequest :=
  { method := .post
    scheme := "http"
    host := "example.com"
    port := 80
    path := "/x"
    version := "HTTP/1.1"
    requestHeaders := syncHeaderMap [("Content-Length", "5"), ("Content-Length", "10")]
    headerList := [("Content-Length", "5"), ("Content-Length", "10")]
    bodyKind := .contentLength 5
    bufferedBody := [] }

/-- C5 counterexample: on a request with duplicate Content-Length headers,
a body-setting edit rewrites only the first one, so the forwarded head
carries Content-Length values "1" and "10" — not only the new body length
1. -/
theorem edit_with_body_duplicate_content_length_counterexample :
    headerValuesCI
        (writeRequestHeadHeaders
          ((dupContentLengthRequest.applyEdit
            ⟨Option.none, Option.none, Option.none, some [65]⟩).headerList))
        "Content-Length" = ["1", "10"] ∧
    (["1", "10"] : List String) ≠ [Nat.repr ([65] : List Nat).length] := by
  constructor
  · decide
  · decide

/-!
C2: the 32 MiB request-body cap.

`read_http_request` (server.rs:1584-1589) rejects a declared Content-Length
above the cap with a `RequestBodyTooLarge` error.  Both connection loops
send an error response only for the first request of the connection: the
plain-HTTP loop (`handle_connection`, server.rs:339-351) answers 400 when
`request_number == 1` and otherwise just breaks out of the keep-alive
loop; the TLS-intercepted loop (`intercept_tls_stream`,
server.rs:1709-1728) downcasts the error and answers 413 (400 for other
errors) when `request_count == 1`, otherwise breaking silently.  Chunked
bodies are checked while forwarding (`forward_chunked_request_body`,
server.rs:2347-2352) and the resulting `RequestBodyTooLarge` is mapped to
413 by `process_request` (server.rs:510-520) on both schemes, on any
request of the connection.
-/

/-- The two error classes `handle_connection` / `intercept_tls_stream` /
`process_request` distinguish by downcasting to `RequestBodyTooLarge`. -/
inductive ReqReadError where
  | bodyTooLarge
  | other
  deriving DecidableEq, Repr, Fintype

/-- The declared-Content-Length guard of `read_http_request`
(server.rs:1584-1589). -/
def readHttpRequestLengthCheck (contentLength : Option Nat) : Option ReqReadError :=
  match contentLength with
  | some len => if len > maxRequestBodyBytes then some .bodyTooLarge else none
  | none => none

/-- The response `handle_connection` sends for a request-parse error on a
plain-HTTP connection (server.rs:339-351): 400 when it is the first
request of the connection (`request_number == 1`), otherwise the
keep-alive loop is broken with no response (`none`). -/
def handleConnectionParseErrorResponse (requestNumber : Nat) (_err : ReqReadError) :
    Option Nat :=
  if requestNumber = 1 then some 400 else Option.none

/-- The response `intercept_tls_stream` sends for a request-parse error on
a TLS-intercepted connection (server.rs:1709-1728): on the first request
of the connection (`request_count == 1`), 413 for `RequestBodyTooLarge`
and 400 otherwise; on later keep-alive requests the loop is broken with no
response (`none`). -/
def interceptTlsParseErrorResponse (requestCount : Nat) (err : ReqReadError) :
    Option Nat :=
  if requestCount = 1 then
    match err with
    | .bodyTooLarge => some 413
    | .other => some 400
  else Option.none

/-- Status `process_request` sends when forwarding the body fails
(server.rs:510-520); this response is not gated on the request number. -/
def forwardErrorStatus : ReqReadError → Nat
  | .bodyTooLarge => 413
  | .other => 400

/-- The running-total loop of `forward_chunked_request_body`
(server.rs:2319-2363) restricted to the chunk sizes it decodes: each
nonzero chunk size is added to the total (`checked_add`, which cannot
overflow in `Nat`), and a total above the cap aborts with
`RequestBodyTooLarge`; a zero size ends the body. -/
def chunkedCumulativeGo (total : Nat) : List Nat → Except ReqReadError Nat
  | [] => .ok total
  | s :: rest =>
    if s = 0 then .ok total
    else
      if total + s > maxRequestBodyBytes then .error .bodyTooLarge
      else chunkedCumulativeGo (total + s) rest

/-- The cumulative chunked-body check over a list of chunk sizes. -/
def forwardChunkedCumulative (sizes : List Nat) : Except ReqReadError Nat :=
  chunkedCumulativeGo 0 sizes

/-- The decoded size of a chunked body given its chunk-size sequence (a
zero size terminates the body). -/
def chunkedDecodedSize : List Nat → Nat
  | [] => 0
  | s :: rest => if s = 0 then 0 else s + chunkedDecodedSize rest

theorem chunkedCumulativeGo_exceeds (sizes : List Nat) :
    ∀ total, total ≤ maxRequestBodyBytes →
      maxRequestBodyBytes < total + chunkedDecodedSize sizes →
      chunkedCumulativeGo total sizes = .error .bodyTooLarge := by
  induction sizes with
  | nil =>
    intro total h1 h2
    simp only [chunkedDecodedSize] at h2
    omega
  | cons s rest ih =>
    intro total h1 h2
    simp only [chunkedDecodedSize] at h2
    by_cases hs : s = 0
    · simp [hs] at h2
      omega
    · simp only [chunkedCumulativeGo, hs, if_false]
      by_cases ht : total + s > maxRequestBodyBytes
      · simp [ht]
      · simp only [ht, if_false]
        simp only [hs, if_false] at h2
        exact ih (total + s) (by omega) (by omega)

/-- C2 (amended): a declared Content-Length over the 32 MiB cap fails the
parse-time check with `RequestBodyTooLarge`; the client is answered only
on the first request of the connection — 400 on a plain-HTTP connection,
413 on a TLS-intercepted one — and later keep-alive requests get no
response at all; a chunked body whose cumulative decoded size exceeds the
cap aborts forwarding with `RequestBodyTooLarge`, which `process_request`
maps to 413 on both schemes on any request of the connection. -/
theorem oversized_request_body_statuses (n len : Nat) (sizes : List Nat)
    (hlen : maxRequestBodyBytes < len)
    (hsz : maxRequestBodyBytes < chunkedDecodedSize sizes) :
    readHttpRequestLengthCheck (some len) = some .bodyTooLarge ∧
    handleConnectionParseErrorResponse n .bodyTooLarge =
      (if n = 1 then some 400 else Option.none) ∧
    interceptTlsParseErrorResponse n .bodyTooLarge =
      (if n = 1 then some 413 else Option.none) ∧
    forwardChunkedCumulative sizes = .error .bodyTooLarge ∧
    forwardErrorStatus .bodyTooLarge = 413 := by
  refine ⟨?_, rfl, ?_, ?_, rfl⟩
  · simp [readHttpRequestLengthCheck, hlen]
  · by_cases hn : n = 1 <;> simp [interceptTlsParseErrorResponse, hn]
  · exact chunkedCumulativeGo_exceeds sizes 0 (by omega) (by omega)

/-- Witness for C2 (amended) on the first request of a connection, at a
declared length and a chunk sequence one byte over the cap. -/
theorem oversized_request_body_statuses_witness :
    maxRequestBodyBytes < maxRequestBodyBytes + 1 ∧
    maxRequestBodyBytes < chunkedDecodedSize [maxRequestBodyBytes + 1] ∧
    (readHttpRequestLengthCheck (some (maxRequestBodyBytes + 1)) = some .bodyTooLarge ∧
      handleConnectionParseErrorResponse 1 .bodyTooLarge =
        (if 1 = 1 then some 400 else Option.none) ∧
      interceptTlsParseErrorResponse 1 .bodyTooLarge =
        (if 1 = 1 then some 413 else Option.none) ∧
      forwardChunkedCumulative [maxRequestBodyBytes + 1] = .error .bodyTooLarge ∧
      forwardErrorStatus .bodyTooLarge = 413) :=
  ⟨by omega, by simp [chunkedDecodedSize],
    oversized_request_body_statuses 1 (maxRequestBodyBytes + 1) [maxRequestBodyBytes + 1]
      (by omega) (by simp [chunkedDecodedSize])⟩

/-- C2 counterexample: the first plain-HTTP request of a connection
declaring Content-Length one byte over the cap fails the length check and
is answered 400, not 413. -/
theorem plain_http_oversized_body_answered_400 :
    readHttpRequestLengthCheck (some (maxRequestBodyBytes + 1)) = some .bodyTooLarge ∧
    handleConnectionParseErrorResponse 1 .bodyTooLarge = some 400 ∧
    handleConnectionParseErrorResponse 1 .bodyTooLarge ≠ some 413 := by
  refine ⟨?_, rfl, ?_⟩
  · simp [readHttpRequestLengthCheck, maxRequestBodyBytes]
  · simp [handleConnectionParseErrorResponse]

/-!
C3: the H2 blocklist and the forced HTTP/1.1 fallback.

`is_h2_blocklisted` (server.rs:281-305) returns true when H2 is globally
disabled; otherwise an entry younger than the 300 s TTL keeps the origin
blocklisted, and an entry at or past the TTL is removed and ignored.
`connect_upstream` (server.rs:765-1009) consults it: a blocklisted HTTPS
origin skips the H2 pool, never takes the bridge path even if the probe
TLS handshake negotiated h2, and is re-dialed with a TLS client config
advertising only http/1.1 (server.rs:953-987).  Durations are modelled in
milliseconds.
-/

/-- `H2_BLOCKLIST_TTL` (server.rs:263), in milliseconds. -/
def h2BlocklistTTLMillis : Nat := 300 * 1000

/-- `is_h2_blocklisted`, given the global H2 toggle and the age of the
blocklist entry for the origin (`none` when there is no entry).  Returns
the decision together with the surviving entry (a stale entry is
removed). -/
def isH2Blocklisted (h2Enabled : Bool) (entryElapsedMillis : Option Nat) :
    Bool × Option Nat :=
  if !h2Enabled then (true, entryElapsedMillis)
  else
    match entryElapsedMillis with
    | some e => if e < h2BlocklistTTLMillis then (true, some e) else (false, none)
    | none => (false, none)

/-- ALPN protocols of `build_tls_client_config` (server.rs:69). -/
def defaultClientAlpn : List String := ["h2", "http/1.1"]

/-- ALPN protocols of the forced-HTTP/1.1 fallback config
(server.rs:959). -/
def forcedH1Alpn : List String := ["http/1.1"]

/-- The kinds of upstream stream `connect_upstream` can return. -/
inductive UpstreamKind where
  | bridgePooled
  | bridgeNewH2
  | tlsForcedH1
  | tlsDirect
  | plainTcp
  deriving DecidableEq, Repr, Fintype

/-- The decision `connect_upstream` takes, together with the ALPN
protocols advertised by the TLS client config of the returned
connection (empty for plain TCP). -/
structure UpstreamDecision where
  kind : UpstreamKind
  alpnAdvertised : List String
  deriving DecidableEq, Repr

/-- The control flow of `connect_upstream` (server.rs:765-1009) as a
function of the scheme, the blocklist decision, whether the pool holds a
ready sender, and whether the probe TLS handshake negotiated h2: a
non-blocklisted pool hit is bridged; otherwise a dial is made and, for
HTTPS, h2 ALPN on a non-blocklisted origin starts a new bridge, a
blocklisted origin is re-dialed with the http/1.1-only config, and any
other origin keeps the raw TLS stream. -/
def connectUpstreamPlan (schemeHttps blocked poolHit alpnH2 : Bool) : UpstreamDecision :=
  if schemeHttps then
    if !blocked && poolHit then ⟨.bridgePooled, defaultClientAlpn⟩
    else if alpnH2 && !blocked then ⟨.bridgeNewH2, defaultClientAlpn⟩
    else if blocked then ⟨.tlsForcedH1, forcedH1Alpn⟩
    else ⟨.tlsDirect, defaultClientAlpn⟩
  else ⟨.plainTcp, []⟩

/-- C3: for an HTTPS origin whose blocklist entry is younger than 300 s,
`is_h2_blocklisted` answers true (whatever the global H2 toggle), and
`connect_upstream` returns the forced-HTTP/1.1 TLS stream whose client
config advertises only http/1.1 — never a pool or bridge stream; and an
entry 300 s old or older yields the same decision as no entry at all. -/
theorem fresh_blocklist_forces_http1_alpn (h2Enabled poolHit alpnH2 : Bool)
    (elapsed : Nat) (hfresh : elapsed < h2BlocklistTTLMillis) :
    (isH2Blocklisted h2Enabled (some elapsed)).1 = true ∧
    (connectUpstreamPlan true (isH2Blocklisted h2Enabled (some elapsed)).1
        poolHit alpnH2).kind = .tlsForcedH1 ∧
    (connectUpstreamPlan true (isH2Blocklisted h2Enabled (some elapsed)).1
        poolHit alpnH2).alpnAdvertised = ["http/1.1"] ∧
    (∀ (h2e : Bool) (stale : Nat), h2BlocklistTTLMillis ≤ stale →
      (isH2Blocklisted h2e (some stale)).1 = (isH2Blocklisted h2e none).1) := by
  have hblocked : (isH2Blocklisted h2Enabled (some elapsed)).1 = true := by
    cases h2Enabled <;> simp [isH2Blocklisted, hfresh]
  refine ⟨hblocked, ?_, ?_, ?_⟩
  · rw [hblocked]
    simp [connectUpstreamPlan]
  · rw [hblocked]
    simp [connectUpstreamPlan, forcedH1Alpn]
  · intro h2e stale hstale
    cases h2e <;> simp [isH2Blocklisted, Nat.not_lt.mpr hstale]

/-- Witness for C3 at a 1-second-old entry (and checking the stale clause
survives instantiation). -/
theorem fresh_blocklist_forces_http1_alpn_witness :
    (1000 : Nat) < h2BlocklistTTLMillis ∧
    ((isH2Blocklisted true (some 1000)).1 = true ∧
      (connectUpstreamPlan true (isH2Blocklisted true (some 1000)).1 true true).kind =
        .tlsForcedH1 ∧
      (connectUpstreamPlan true (isH2Blocklisted true (some 1000)).1
          true true).alpnAdvertised = ["http/1.1"] ∧
      (∀ (h2e : Bool) (stale : Nat), h2BlocklistTTLMillis ≤ stale →
        (isH2Blocklisted h2e (some stale)).1 = (isH2Blocklisted h2e none).1)) :=
  ⟨by decide, fresh_blocklist_forces_http1_alpn true true true 1000 (by decide)⟩

/-!
C8/C9: the transaction store (storage/transaction_store.rs).

`HttpTransaction` (models/transaction.rs:121-189) is embedded in full;
`HashMap<String, String>` header maps become association lists, byte
bodies become `List Nat`, `i64`/`u16`/`u32`/`u64` become `Int`/`Nat`.
The durable layer is a list of rows in rowid (insertion) order; the
serde-JSON `data` column round-trips the transaction exactly, so it is
modelled by the transaction value itself.  `INSERT OR REPLACE` on the
`id` primary key deletes the conflicting row and appends the new one
(fresh rowid).  `ORDER BY started_at DESC` carries no secondary sort key;
SQLite scans equal keys in rowid order, modelled by a stable sort.
-/

/-- `TransactionTiming` (models/transaction.rs:84-101). -/
structure TransactionTiming where
  startTime : Int
  dnsLookupMs : Option Nat
  tcpConnectMs : Option Nat
  tlsHandshakeMs : Option Nat
  requestSendMs : Option Nat
  waitingMs : Option Nat
  contentDownloadMs : Option Nat
  totalMs : Option Nat
  deriving Repr, DecidableEq

/-- `HttpTransaction` (models/transaction.rs:121-189). -/
structure HttpTransaction where
  id : String
  method : HttpMethod
  scheme : String
  host : String
  port : Nat
  path : String
  httpVersion : String
  state : TransactionState
  requestHeaders : List (String × String)
  requestBody : Option (List Nat)
  requestContentType : Option String
  statusCode : Option Nat
  statusMessage : Option String
  responseHeaders : Option (List (String × String))
  responseBody : Option (List Nat)
  responseContentType : Option String
  timing : TransactionTiming
  responseSize : Option Nat
  hasBreakpoint : Bool
  notes : Option String
  serverIp : Option String
  tlsVersion : Option String
  tlsCipher : Option String
  connectionReused : Bool
  streamId : Option Nat
  isWebsocket : Bool
  deriving Repr, DecidableEq

/-- One row of the `transactions` table (transaction_store.rs:73-81); the
`data` column holds the serialized transaction, modelled by the value
itself. -/
structure SqlRow where
  id : String
  startedAt : Int
  method : String
  host : String
  path : String
  status : Option Int
  data : HttpTransaction
  deriving Repr, DecidableEq

/-- The row written by `add_transaction` (transaction_store.rs:110-123). -/
def txToRow (tx : HttpTransaction) : SqlRow :=
  { id := tx.id
    startedAt := tx.timing.startTime
    method := tx.method.toString
    host := tx.host
    path := tx.path
    status := tx.statusCode.map (fun s => (s : Int))
    data := tx }

/-- `TransactionStore` (transaction_store.rs:54-59): the in-memory ring
(front = oldest) with its capacity, and the durable table in rowid
order. -/
structure TransactionStore where
  ring : List HttpTransaction
  maxLen : Nat
  db : List SqlRow
  deriving Repr

/-- The `while ring.len() > max_len { ring.pop_front() }` loop of
`add_transaction` (transaction_store.rs:103-105). -/
def ringEvict (maxLen : Nat) (ring : List HttpTransaction) : List HttpTransaction :=
  if ring.length ≤ maxLen then ring else ring.drop (ring.length - maxLen)

/-- `TransactionStore::add_transaction` (transaction_store.rs:99-129):
push the clone onto the ring and evict from the front past capacity, then
`INSERT OR REPLACE` the serialized row. -/
def TransactionStore.addTransaction (st : TransactionStore) (tx : HttpTransaction) :
    TransactionStore :=
  { st with
    ring := ringEvict st.maxLen (st.ring ++ [tx])
    db := st.db.filter (fun r => r.id ≠ tx.id) ++ [txToRow tx] }

/-- `TransactionStore::get_by_id` (transaction_store.rs:387-415): scan the
ring front-to-back first, then fall back to the primary-key lookup in the
durable layer. -/
def TransactionStore.getById (st : TransactionStore) (id : String) :
    Option HttpTransaction :=
  match st.ring.find? (fun t => t.id == id) with
  | some t => some t
  | none => (st.db.find? (fun r => r.id == id)).map (fun r => r.data)

theorem find?_append_eq {α} (p : α → Bool) (l1 l2 : List α) (h : l1.find? p = none) :
    (l1 ++ l2).find? p = l2.find? p := by
  induction l1 with
  | nil => rfl
  | cons a rest ih =>
    by_cases ha : p a = true
    · simp [List.find?_cons, ha] at h
    · simp only [List.cons_append, List.find?_cons, ha] at h ⊢
      exact ih h

theorem find?_eq_none_of_all {α} (p : α → Bool) (l : List α)
    (h : ∀ x ∈ l, p x = false) : l.find? p = none := by
  induction l with
  | nil => rfl
  | cons a rest ih =>
    simp only [List.find?_cons, h a (List.mem_cons_self a rest)]
    exact ih (fun x hx => h x (List.mem_cons_of_mem a hx))

/-- C8 (amended): persisting a transaction whose id is not already
buffered in the ring and then fetching it by id returns it exactly — no
body truncation happens at the store layer.  (When the ring does already
hold an entry with the same id — as happens when a Breakpointed snapshot
of the same transaction was persisted earlier — `get_by_id` returns that
oldest buffered snapshot instead; see the counterexample.) -/
theorem persist_then_fetch_returns_exact (st : TransactionStore) (tx : HttpTransaction)
    (hring : ∀ t ∈ st.ring, t.id ≠ tx.id) :
    (st.addTransaction tx).getById tx.id = some tx := by
  have hself : (tx.id == tx.id) = true := by simp
  have hringNone : st.ring.find? (fun t => t.id == tx.id) = none :=
    find?_eq_none_of_all _ _ (fun t ht => by
      simp only [beq_eq_false_iff_ne, ne_eq]
      exact hring t ht)
  have hdbNone : (st.db.filter (fun r => r.id ≠ tx.id)).find?
      (fun r => r.id == tx.id) = none :=
    find?_eq_none_of_all _ _ (fun r hr => by
      have := List.of_mem_filter hr
      simp only [decide_eq_true_eq] at this
      simp only [beq_eq_false_iff_ne, ne_eq]
      exact this)
  by_cases hle : (st.ring ++ [tx]).length ≤ st.maxLen
  · have hfind : (ringEvict st.maxLen (st.ring ++ [tx])).find?
        (fun t => t.id == tx.id) = some tx := by
      rw [ringEvict, if_pos hle, find?_append_eq _ _ _ hringNone]
      simp [List.find?_cons, hself]
    simp [TransactionStore.addTransaction, TransactionStore.getById, hfind]
  · by_cases hz : st.maxLen = 0
    · have hfind : (ringEvict st.maxLen (st.ring ++ [tx])).find?
          (fun t => t.id == tx.id) = none := by
        rw [ringEvict, if_neg hle, List.drop_eq_nil_of_le (by simp [hz])]
        rfl
      have hdb : ((st.db.filter (fun r => r.id ≠ tx.id)) ++ [txToRow tx]).find?
          (fun r => r.id == tx.id) = some (txToRow tx) := by
        rw [find?_append_eq _ _ _ hdbNone]
        simp [List.find?_cons, txToRow, hself]
      simp only [TransactionStore.addTransaction, TransactionStore.getById, hfind, hdb,
        Option.map_some]
      rfl
    · have hk : (st.ring ++ [tx]).length - st.maxLen ≤ st.ring.length := by
        simp only [List.length_append, List.length_cons, List.length_nil]
        omega
      have hfind : (ringEvict st.maxLen (st.ring ++ [tx])).find?
          (fun t => t.id == tx.id) = some tx := by
        rw [ringEvict, if_neg hle, List.drop_append_of_le_length hk]
        have hdropNone : (st.ring.drop ((st.ring ++ [tx]).length - st.maxLen)).find?
            (fun t => t.id == tx.id) = none :=
          find?_eq_none_of_all _ _ (fun t ht => by
            simp only [beq_eq_false_iff_ne, ne_eq]
            exact hring t (List.mem_of_mem_drop ht))
        rw [find?_append_eq _ _ _ hdropNone]
        simp [List.find?_cons, hself]
      simp [TransactionStore.addTransaction, TransactionStore.getById, hfind]

/-- A transaction shaped like `HttpTransaction::new` plus the given state
and status, used for concrete store scenarios. -/
def mkBaseTx (id : String) (start : Int) (st : TransactionState)
    (code : Option Nat) : HttpTransaction :=
  { id := id
    method := .get
    scheme := "https"
    host := "example.com"
    port := 443
    path := "/"
    httpVersion := "HTTP/1.1"
    state := st
    requestHeaders := []
    requestBody := Option.none
    requestContentType := Option.none
    statusCode := code
    statusMessage := Option.none
    responseHeaders := Option.none
    responseBody := Option.none
    responseContentType := Option.none
    timing := { startTime := start, dnsLookupMs := Option.none, tcpConnectMs := Option.none,
                tlsHandshakeMs := Option.none, requestSendMs := Option.none,
                waitingMs := Option.none, contentDownloadMs := Option.none,
                totalMs := Option.none }
    responseSize := Option.none
    hasBreakpoint := false
    notes := Option.none
    serverIp := Option.none
    tlsVersion := Option.none
    tlsCipher := Option.none
    connectionReused := false
    streamId := Option.none
    isWebsocket := false }

/-- Is `as` a prefix of `bs` (byte lists)? -/
def natsPrefixOf : List Nat → List Nat → Bool
  | [], _ => true
  | _ :: _, [] => false
  | a :: as, b :: bs => a == b && natsPrefixOf as bs

/-- Is the fetched body a truncation of the original one? -/
def bodyTruncatedFrom : Option (List Nat) → Option (List Nat) → Bool
  | Option.none, _ => true
  | some _, Option.none => false
  | some f, some o => natsPrefixOf f o

/-- Modelled from the spec: "persist(T) then fetch_by_id(T.id) returns a
T' equal to T modulo body truncation" — all fields equal except the two
captured bodies, where the fetched copy may be a prefix of the
original. -/
def eqModuloBodyTruncation (fetched original : HttpTransaction) : Bool :=
  decide (fetched.id = original.id) && decide (fetched.method = original.method) &&
    decide (fetched.scheme = original.scheme) && decide (fetched.host = original.host) &&
    decide (fetched.port = original.port) && decide (fetched.path = original.path) &&
    decide (fetched.httpVersion = original.httpVersion) &&
    decide (fetched.state = original.state) &&
    decide (fetched.requestHeaders = original.requestHeaders) &&
    bodyTruncatedFrom fetched.requestBody original.requestBody &&
    decide (fetched.requestContentType = original.requestContentType) &&
    decide (fetched.statusCode = original.statusCode) &&
    decide (fetched.statusMessage = original.statusMessage) &&
    decide (fetched.responseHeaders = original.responseHeaders) &&
    bodyTruncatedFrom fetched.responseBody original.responseBody &&
    decide (fetched.responseContentType = original.responseContentType) &&
    decide (fetched.timing = original.timing) &&
    decide (fetched.responseSize = original.responseSize) &&
    decide (fetched.hasBreakpoint = original.hasBreakpoint) &&
    decide (fetched.notes = original.notes) &&
    decide (fetched.serverIp = original.serverIp) &&
    decide (fetched.tlsVersion = original.tlsVersion) &&
    decide (fetched.tlsCipher = original.tlsCipher) &&
    decide (fetched.connectionReused = original.connectionReused) &&
    decide (fetched.streamId = original.streamId) &&
    decide (fetched.isWebsocket = original.isWebsocket)

/-- The Breakpointed snapshot that `maybe_pause_request` persists
(breakpoints.rs:213) before the final transaction is persisted again under
the same id. -/
def staleSnapshotTx : HttpTransaction := mkBaseTx "x" 100 .breakpointed Option.none

/-- The final Completed transaction with the same id. -/
def completedTx : HttpTransaction := mkBaseTx "x" 100 .completed (some 200)

/-- A store whose ring already buffers the Breakpointed snapshot. -/
def staleStore : TransactionStore :=
  { ring := [staleSnapshotTx], maxLen := 10000, db := [txToRow staleSnapshotTx] }

/-- C8 counterexample: persisting the Completed transaction after its
Breakpointed snapshot (same id, a flow the breakpoint engine produces) and
fetching by id returns the stale snapshot — which differs from the
persisted transaction beyond body truncation (state and status differ). -/
theorem persist_then_fetch_stale_snapshot_counterexample :
    (staleStore.addTransaction completedTx).getById completedTx.id = some staleSnapshotTx ∧
    eqModuloBodyTruncation staleSnapshotTx completedTx = false := by
  constructor
  · decide
  · decide

/-- An empty store for the C8 witness. -/
def emptyStore : TransactionStore := { ring := [], maxLen := 10000, db := [] }

/-- Witness for C8 (amended) on an empty store. -/
theorem persist_then_fetch_returns_exact_witness :
    (∀ t ∈ emptyStore.ring, t.id ≠ completedTx.id) ∧
    (emptyStore.addTransaction completedTx).getById completedTx.id = some completedTx :=
  ⟨by simp [emptyStore],
    persist_then_fetch_returns_exact emptyStore completedTx (by simp [emptyStore])⟩

/-- `TransactionFilter` (models/transaction.rs:194-205). -/
structure TransactionFilter where
  method : Option HttpMethod
  hostContains : Option String
  pathContains : Option String
  statusMin : Option Nat
  statusMax : Option Nat
  deriving Repr, DecidableEq

/-- SQL `LIKE` pattern matching over characters: `%` matches any sequence,
`_` any single character, anything else itself.  Both sides the store
compares are ASCII-lowercased first (`LOWER(host)` against the Rust
`to_ascii_lowercase` of the filter), so the ASCII-case-insensitivity of
SQLite's `LIKE` is already accounted for. -/
def likeMatch : List Char → List Char → Bool
  | [], t => t.isEmpty
  | '%' :: ps, t =>
    likeMatch ps t ||
      match t with
      | [] => false
      | _ :: ts => likeMatch ('%' :: ps) ts
  | '_' :: ps, t =>
    (match t with
     | [] => false
     | _ :: ts => likeMatch ps ts)
  | p :: ps, t =>
    (match t with
     | [] => false
     | c :: ts => p == c && likeMatch ps ts)
termination_by ps t => (ps.length, t.length)

/-- The `'%' || lowered || '%'` pattern built by `build_where_clause`
(transaction_store.rs:427,431). -/
def likePatternFor (sub : String) : List Char :=
  '%' :: ((asciiLower sub).toList ++ ['%'])

/-- The WHERE clause built by `build_where_clause`
(transaction_store.rs:417-448), evaluated on a row: exact method string,
`LOWER(host) LIKE '%…%'`, `LOWER(path) LIKE '%…%'`, and inclusive status
bounds (SQL comparisons against a NULL status are not satisfied). -/
def buildWhereMatches (f : TransactionFilter) (row : SqlRow) : Bool :=
  (match f.method with
   | Option.none => true
   | some m => row.method == m.toString) &&
  (match f.hostContains with
   | Option.none => true
   | some h => likeMatch (likePatternFor h) (asciiLower row.host).toList) &&
  (match f.pathContains with
   | Option.none => true
   | some p => likeMatch (likePatternFor p) (asciiLower row.path).toList) &&
  (match f.statusMin with
   | Option.none => true
   | some mn =>
     match row.status with
     | Option.none => false
     | some s => decide ((mn : Int) ≤ s)) &&
  (match f.statusMax with
   | Option.none => true
   | some mx =>
     match row.status with
     | Option.none => false
     | some s => decide (s ≤ (mx : Int)))

/-- The `ORDER BY started_at DESC` relation on rows. -/
def rowOrder (a b : SqlRow) : Prop := b.startedAt ≤ a.startedAt

instance : DecidableRel rowOrder :=
  fun a b => inferInstanceAs (Decidable (b.startedAt ≤ a.startedAt))

instance : IsTotal SqlRow rowOrder := ⟨fun a b => le_total b.startedAt a.startedAt⟩

instance : IsTrans SqlRow rowOrder := ⟨fun _ _ _ hab hbc => le_trans hbc hab⟩

/-- `PaginatedTransactions` (models/transaction.rs:210-215). -/
structure PaginatedTransactions where
  total : Nat
  page : Nat
  pageSize : Nat
  items : List HttpTransaction
  deriving Repr, DecidableEq

/-- `TransactionStore::query` (transaction_store.rs:131-180): count the
rows matching the WHERE clause, then select their `data` ordered by
`started_at DESC` with `LIMIT page_size OFFSET page * page_size`.  The
`ORDER BY` has no secondary key; rows with equal `started_at` are scanned
in rowid (insertion) order, modelled by a stable insertion sort. -/
def TransactionStore.query (st : TransactionStore) (f : TransactionFilter)
    (page pageSize : Nat) : PaginatedTransactions :=
  let matching := st.db.filter (buildWhereMatches f)
  { total := matching.length
    page := page
    pageSize := pageSize
    items := (((List.insertionSort rowOrder matching).drop (page * pageSize)).take
        pageSize).map (fun r => r.data) }

/-- C9 (amended): for every filter, page and page size, `query` returns
the number of rows matching the filter as the total, and as the page the
`page_size`-long slice at offset `page * page_size` of a sorted-by-
`started_at`-descending permutation of the matching rows — rows with equal
`started_at` appearing in table insertion order (the SQL carries no id
tiebreak). -/
theorem query_returns_total_and_sorted_page (st : TransactionStore)
    (f : TransactionFilter) (page pageSize : Nat) :
    (st.query f page pageSize).total = (st.db.filter (buildWhereMatches f)).length ∧
    ∃ sortedAll : List SqlRow,
      sortedAll.Perm (st.db.filter (buildWhereMatches f)) ∧
      sortedAll.Sorted rowOrder ∧
      (st.query f page pageSize).items =
        ((sortedAll.drop (page * pageSize)).take pageSize).map (fun r => r.data) :=
  ⟨rfl, List.insertionSort rowOrder (st.db.filter (buildWhereMatches f)),
    List.perm_insertionSort rowOrder _, List.sorted_insertionSort rowOrder _, rfl⟩

/-- Two rows with the same `started_at`, inserted as id "b" then id "a". -/
def tieStore : TransactionStore :=
  { ring := []
    maxLen := 10000
    db := [txToRow (mkBaseTx "b" 100 .completed (some 200)),
           txToRow (mkBaseTx "a" 100 .completed (some 200))] }

/-- The all-empty filter (Rust `TransactionFilter::default()`). -/
def emptyFilter : TransactionFilter :=
  ⟨Option.none, Option.none, Option.none, Option.none, Option.none⟩

/-- Lexicographic less-or-equal on character lists (by code point). -/
def charsLe : List Char → List Char → Bool
  | [], _ => true
  | _ :: _, [] => false
  | a :: as, b :: bs => a.toNat < b.toNat || (a == b && charsLe as bs)

/-- Lexicographic less-or-equal on strings. -/
def strLe (a b : String) : Bool := charsLe a.toList b.toList

/-- Modelled from the spec: "Order by started_at DESC, then stable by id" —
consecutive items must descend by start time, ties resolved by ascending
id. -/
def specOrderedByStartedAtThenId : List HttpTransaction → Bool
  | [] => true
  | [_] => true
  | a :: b :: rest =>
    (decide (b.timing.startTime < a.timing.startTime) ||
      (decide (a.timing.startTime = b.timing.startTime) && strLe a.id b.id)) &&
      specOrderedByStartedAtThenId (b :: rest)

/-- C9 counterexample: with two matching rows tied on `started_at` and
inserted in id order "b", "a", the query returns them in insertion order
["b", "a"], which is not ordered by the spec's started_at-then-id rule. -/
theorem query_tie_break_counterexample :
    ((tieStore.query emptyFilter 0 10).items.map (fun t => t.id)) = ["b", "a"] ∧
    specOrderedByStartedAtThenId (tieStore.query emptyFilter 0 10).items = false := by
  constructor
  · decide
  · decide
